import Mathlib

/-!
Verification development for the transformer-circuits.pub RSS feed generator
(`transformer-circuits.pub.py`).  The Python source is shallowly embedded:
pure string processing is translated function by function; calls into
external libraries (`requests`, `bs4`, `urllib.parse.urljoin`,
`html.escape`, `email.utils.format_datetime`, `datetime`) are modelled from
their documented behaviour, since those libraries are not part of the
repository.  `datetime.now()` is modelled by an explicit `now` parameter.
-/

namespace TC

/-- Python `datetime` value as used by the script (naive, second precision). -/
structure Datetime where
  year : Nat
  month : Nat
  day : Nat
  hour : Nat
  minute : Nat
  second : Nat
deriving DecidableEq, Repr

/-- Boolean prefix test on character lists (decidable analogue of
`str.startswith` / the fixed-width regex pieces used by the script). -/
def isPre : List Char → List Char → Bool
  | [], _ => true
  | _ :: _, [] => false
  | a :: as, b :: bs => a == b && isPre as bs

/-- Does `pat` occur as a contiguous subsequence of `l`?  Models `pat in s` /
`re.search` for a literal pattern. -/
def containsSeq (pat : List Char) : List Char → Bool
  | [] => isPre pat []
  | c :: rest => isPre pat (c :: rest) || containsSeq pat rest

/-- One step of the regex `/20\d{2}/` from line 58 of the source: does the
pattern match at the head of the list? -/
def yearSegAt : List Char → Bool
  | '/' :: '2' :: '0' :: a :: b :: '/' :: _ => a.isDigit && b.isDigit
  | _ => false

/-- `re.search(r'/20\d{2}/', url)` from line 58: the pattern matches at some
position. -/
def hasYearSegL : List Char → Bool
  | [] => false
  | c :: rest => yearSegAt (c :: rest) || hasYearSegL rest

def hasYearSeg (s : String) : Bool := hasYearSegL s.data

/-- Numeric value of a decimal digit character. -/
def dVal (c : Char) : Nat := c.toNat - 48

/-- Attempt the regex `\((\d{4}-\d{2}-\d{2})\)` (line 26) at the head of the
list, returning the captured year/month/day digits. -/
def isoAt : List Char → Option (Nat × Nat × Nat)
  | '(' :: y1 :: y2 :: y3 :: y4 :: '-' :: m1 :: m2 :: '-' :: d1 :: d2 :: ')' :: _ =>
    if y1.isDigit && y2.isDigit && y3.isDigit && y4.isDigit &&
       m1.isDigit && m2.isDigit && d1.isDigit && d2.isDigit then
      some (((dVal y1 * 10 + dVal y2) * 10 + dVal y3) * 10 + dVal y4,
            dVal m1 * 10 + dVal m2, dVal d1 * 10 + dVal d2)
    else none
  | _ => none

/-- `re.search(r'\((\d{4}-\d{2}-\d{2})\)', s)` (line 26): leftmost match.
The pattern has fixed width, so the leftmost regex match is the first
position at which `isoAt` succeeds. -/
def findIsoDate : List Char → Option (Nat × Nat × Nat)
  | [] => none
  | c :: rest =>
    match isoAt (c :: rest) with
    | some r => some r
    | none => findIsoDate rest

/-- The twelve full month names (lowercased) with their numbers, in the order
they appear in the alternation of the regex on line 34. -/
def monthNames : List (List Char × Nat) :=
  [("january".data, 1), ("february".data, 2), ("march".data, 3),
   ("april".data, 4), ("may".data, 5), ("june".data, 6),
   ("july".data, 7), ("august".data, 8), ("september".data, 9),
   ("october".data, 10), ("november".data, 11), ("december".data, 12)]

/-- Case-insensitive prefix stripping: `pat` is already lowercase, input
characters are lowered before comparison (models `re.IGNORECASE`). -/
def stripPrefixCI : List Char → List Char → Option (List Char)
  | [], s => some s
  | _ :: _, [] => none
  | p :: ps, c :: cs => if c.toLower = p then stripPrefixCI ps cs else none

/-- After a month name, the regex on line 34 requires `\s+(\d{4})`: at least
one whitespace character, then four digits (further digits may follow, the
group captures exactly four).  Whitespace cannot be a digit, so the greedy
`\s+` never needs to backtrack. -/
def wsThenYear : List Char → Option Nat
  | [] => none
  | c :: rest =>
    if c.isWhitespace then
      match rest.dropWhile Char.isWhitespace with
      | a :: b :: c2 :: d :: _ =>
        if a.isDigit && b.isDigit && c2.isDigit && d.isDigit then
          some (((dVal a * 10 + dVal b) * 10 + dVal c2) * 10 + dVal d)
        else none
      | _ => none
    else none

/-- Attempt the month-name regex of line 34 at the head of the list.  No
month name is a prefix of another, so at most one alternative can match. -/
def monthYearAt (l : List Char) : Option (Nat × Nat) :=
  match monthNames.findSome?
      (fun pr => (stripPrefixCI pr.1 l).map (fun rest => (pr.2, rest))) with
  | none => none
  | some (num, rest) =>
    match wsThenYear rest with
    | none => none
    | some y => some (num, y)

/-- Leftmost match of the `(January|...|December)\s+(\d{4})` regex (line
34, `re.IGNORECASE`). -/
def findMonthYear : List Char → Option (Nat × Nat)
  | [] => none
  | c :: rest =>
    match monthYearAt (c :: rest) with
    | some r => some r
    | none => findMonthYear rest

/-- Gregorian leap-year test (as in Python's `datetime`). -/
def isLeap (y : Nat) : Bool := (y % 4 == 0 && y % 100 != 0) || y % 400 == 0

def daysInMonth (y m : Nat) : Nat :=
  if m = 2 then (if isLeap y then 29 else 28)
  else if m = 4 ∨ m = 6 ∨ m = 9 ∨ m = 11 then 30 else 31

/-- Does `datetime.strptime(_, '%Y-%m-%d')` accept the captured digits?
`datetime` requires year 1..9999, month 1..12 and a day valid for the
month; otherwise a `ValueError` is raised (and swallowed on line 30). -/
def validYMD (y m d : Nat) : Bool :=
  decide (1 ≤ y ∧ y ≤ 9999 ∧ 1 ≤ m ∧ m ≤ 12 ∧ 1 ≤ d ∧ d ≤ daysInMonth y m)

/-- Lines 33-41 of `parse_date`: try the month-name pattern, otherwise fall
back to `datetime.now()` (the `now` parameter).  `strptime('%B %Y')` on the
matched text fails only when the four-digit year is 0000 (year 0 is not a
valid `datetime` year). -/
def monthFallback (now : Datetime) (l : List Char) : Datetime :=
  match findMonthYear l with
  | some (m, y) => if 1 ≤ y then ⟨y, m, 1, 0, 0, 0⟩ else now
  | none => now

/-- `parse_date` (lines 23-41).  `datetime.now()` is the `now` parameter. -/
def parse_date (now : Datetime) (s : String) : Datetime :=
  match findIsoDate s.data with
  | some (y, m, d) =>
    if validYMD y m d then ⟨y, m, d, 0, 0, 0⟩ else monthFallback now s.data
  | none => monthFallback now s.data

/-- Decimal digit character (index into `"0123456789"`). -/
def digitChar (n : Nat) : Char :=
  if n = 0 then '0' else if n = 1 then '1' else if n = 2 then '2'
  else if n = 3 then '3' else if n = 4 then '4' else if n = 5 then '5'
  else if n = 6 then '6' else if n = 7 then '7' else if n = 8 then '8'
  else if n = 9 then '9' else '0'

/-- Decimal digits of a natural number, fuel-based so that the kernel can
evaluate it (`fuel` bounds the number of digits; `decDigits` supplies
enough). -/
def decDigitsGo : Nat → Nat → List Char
  | 0, _ => []
  | fuel + 1, n =>
    if n < 10 then [digitChar n] else decDigitsGo fuel (n / 10) ++ [digitChar (n % 10)]

/-- Decimal digits of a natural number (plain `str(n)` in Python). -/
def decDigits (n : Nat) : List Char := decDigitsGo (n + 1) n

/-- Python `'%02d' % n`. -/
def pad2 (n : Nat) : String :=
  if n < 10 then ⟨['0', digitChar n]⟩ else ⟨decDigits n⟩

/-- Python `'%04d' % n`. -/
def pad4 (n : Nat) : String :=
  if n < 10 then ⟨['0', '0', '0', digitChar n]⟩
  else if n < 100 then ⟨'0' :: '0' :: decDigits n⟩
  else if n < 1000 then ⟨'0' :: decDigits n⟩
  else ⟨decDigits n⟩

/-- Sakamoto's day-of-week algorithm, 0 = Sunday (as used by `datetime`'s
calendar arithmetic underlying `timetuple().tm_wday`). -/
def sakamoto (y m d : Nat) : Nat :=
  let t : List Nat := [0, 3, 2, 5, 0, 3, 5, 1, 4, 6, 2, 4]
  let y' := if m < 3 then y - 1 else y
  (y' + y' / 4 - y' / 100 + y' / 400 + t.getD (m - 1) 0 + d) % 7

/-- Python `timetuple().tm_wday`: Monday = 0. -/
def pyWeekday (dt : Datetime) : Nat := (sakamoto dt.year dt.month dt.day + 6) % 7

/-- Abbreviated weekday names as in `email.utils` (indexed by `tm_wday`). -/
def pickDay (k : Nat) : String :=
  if k = 0 then "Mon" else if k = 1 then "Tue" else if k = 2 then "Wed"
  else if k = 3 then "Thu" else if k = 4 then "Fri" else if k = 5 then "Sat"
  else "Sun"

/-- Abbreviated month names as in `email.utils`; `datetime` guarantees the
month is 1..12, the default branch is unreachable on real values. -/
def pickMonth (m : Nat) : String :=
  if m = 1 then "Jan" else if m = 2 then "Feb" else if m = 3 then "Mar"
  else if m = 4 then "Apr" else if m = 5 then "May" else if m = 6 then "Jun"
  else if m = 7 then "Jul" else if m = 8 then "Aug" else if m = 9 then "Sep"
  else if m = 10 then "Oct" else if m = 11 then "Nov" else if m = 12 then "Dec"
  else "Jan"

/-- `email.utils.format_datetime(dt)` for a naive datetime: RFC 822 text
`'%s, %02d %s %04d %02d:%02d:%02d -0000'` (lines 90 and 133). -/
def formatDatetime (dt : Datetime) : String :=
  pickDay (pyWeekday dt) ++ ", " ++ pad2 dt.day ++ " " ++ pickMonth dt.month ++ " " ++
    pad4 dt.year ++ " " ++ pad2 dt.hour ++ ":" ++ pad2 dt.minute ++ ":" ++
    pad2 dt.second ++ " -0000"

/-- Python `str.replace(pat, repl)` for a general pattern: leftmost
non-overlapping occurrences of `pat` are replaced by `repl`.  Fuel-based
(the fuel bounds the recursion depth; each step consumes at least one input
character, so `input.length` fuel suffices) to keep the definition
kernel-evaluable.  The script only calls it with a non-empty pattern (the
empty-pattern guard keeps the function total). -/
def pyReplaceGo (pat repl : List Char) : Nat → List Char → List Char
  | _, [] => []
  | 0, s => s
  | fuel + 1, c :: rest =>
    if pat.length = 0 then c :: rest
    else if isPre pat (c :: rest) then
      repl ++ pyReplaceGo pat repl fuel (rest.drop (pat.length - 1))
    else c :: pyReplaceGo pat repl fuel rest

def pyReplace (pat repl s : List Char) : List Char := pyReplaceGo pat repl s.length s

/-- Python `str.replace(p, repl)` for a one-character pattern (occurrences
of a single character never overlap, so the scan is plainly structural).
Used to model the five `str.replace` passes inside `html.escape`. -/
def replaceChar (p : Char) (repl : List Char) : List Char → List Char
  | [] => []
  | c :: rest =>
    if c = p then repl ++ replaceChar p repl rest else c :: replaceChar p repl rest

/-- Python `str.strip()`: leading and trailing whitespace removed. -/
def pyStrip (l : List Char) : List Char :=
  ((l.dropWhile Char.isWhitespace).reverse.dropWhile Char.isWhitespace).reverse

/-- One `<a href=...>` element as seen by the extraction loop.  BeautifulSoup
is external to the repository, so the values the loop reads from a tag are
modelled as fields: `href` is `a_tag['href']`, `text` is
`a_tag.get_text(" ", strip=True)`, `parentText` is
`a_tag.parent.get_text(" ", strip=True)` (`none` when the tag has no
parent), and `siblingText` is the text of
`a_tag.find_next_sibling(['p', 'div', 'span'])` (`none` when there is no
such sibling). -/
structure ATag where
  href : String
  text : String
  parentText : Option String
  siblingText : Option String
deriving DecidableEq, Repr

/-- The article dictionary appended on lines 92-97. -/
structure Article where
  title : String
  link : String
  description : String
  pubDate : String
deriving DecidableEq, Repr

/-- Origin (`scheme://host`) of a URL, used by the `urljoin` model. -/
def findSchemeSplit : List Char → Option (List Char × List Char)
  | [] => none
  | ':' :: '/' :: '/' :: rest => some ([':', '/', '/'], rest)
  | c :: rest => (findSchemeSplit rest).map (fun pr => (c :: pr.1, pr.2))

def originAux : List Char → List Char
  | [] => []
  | '/' :: _ => []
  | c :: rest => c :: originAux rest

def originOf (base : String) : String :=
  match findSchemeSplit base.data with
  | some (pre, rest) => ⟨pre ++ originAux rest⟩
  | none => base

def dirOf (base : String) : String :=
  ⟨(base.data.reverse.dropWhile (fun c => c ≠ '/')).reverse⟩

/-- Modelled from the spec: `urllib.parse.urljoin` is Python stdlib, external
to the repository ("Resolve each link's address against `baseUrl` to an
absolute URL").  Simplified model: an href that already carries a scheme
resolves to itself, a root-relative href resolves against the base origin,
anything else against the base directory.  Every claim below either
quantifies over the resolved URL or uses hrefs that already carry a scheme,
where this model agrees with the stdlib. -/
def urljoin (base href : String) : String :=
  if href = "" then base
  else if containsSeq (':' :: '/' :: '/' :: []) href.data then href
  else if isPre ['/'] href.data then originOf base ++ href
  else dirOf base ++ href

/-- Line 74: `a_tag.parent.get_text(" ", strip=True) if a_tag.parent else ""`. -/
def parentTextOf (a : ATag) : String :=
  match a.parentText with
  | some t => t
  | none => ""

/-- Lines 77-84: the description is the next sibling's text when such a
sibling exists, else the parent text with the title removed and stripped
(Python truthiness: the fallback fires when the sibling text is empty and
the parent text non-empty). -/
def descriptionOf (a : ATag) : String :=
  let d0 : String := match a.siblingText with
    | some t => t
    | none => ""
  if d0 = "" ∧ parentTextOf a ≠ "" then
    ⟨pyStrip (pyReplace a.text.data [] (parentTextOf a).data)⟩
  else d0

/-- Line 87: the string handed to `parse_date`. -/
def dateSrcOf (a : ATag) : String := parentTextOf a ++ " " ++ descriptionOf a

/-- The dictionary built on lines 92-97 for a tag that survives all the
filters. -/
def mkArticle (now : Datetime) (base : String) (a : ATag) : Article :=
  { title := a.text
    link := urljoin base a.href
    description := descriptionOf a
    pubDate := formatDatetime (parse_date now (dateSrcOf a)) }

/-- The loop of `extract_articles` (lines 53-97): year filter on the
absolute URL, dedup against `seen_links` (the URL is recorded *before* the
title check), empty-title skip, then emission in document order. -/
def extractLoop (now : Datetime) (base : String) : List ATag → List String → List Article
  | [], _ => []
  | a :: rest, seen =>
    if hasYearSeg (urljoin base a.href) = false then extractLoop now base rest seen
    else if urljoin base a.href ∈ seen then extractLoop now base rest seen
    else if a.text = "" then extractLoop now base rest (urljoin base a.href :: seen)
    else mkArticle now base a :: extractLoop now base rest (urljoin base a.href :: seen)

/-- `extract_articles` (lines 43-99), over the list of `<a href=...>` tags
that BeautifulSoup's `find_all('a', href=True)` yields in document order. -/
def extract_articles (now : Datetime) (base : String) (tags : List ATag) : List Article :=
  extractLoop now base tags []

/-- The apostrophe character (written by code point to keep it out of
literals). -/
def apos : Char := Char.ofNat 39

/-- The entity `&#x27;` that `html.escape` substitutes for an apostrophe. -/
def aposEntity : List Char := "&#x27;".data

/-- `html.escape(s)` with `quote=True` (Python stdlib, external to the
repository), exactly as CPython implements it: five successive
`str.replace` passes, ampersands first. -/
def html_escape (s : String) : String :=
  ⟨replaceChar apos aposEntity
    (replaceChar '"' ("&quot;".data)
      (replaceChar '>' ("&gt;".data)
        (replaceChar '<' ("&lt;".data)
          (replaceChar '&' ("&amp;".data) s.data))))⟩

/-- Character-wise XML entity encoding — the specification of what
`html.escape` is meant to do ("`<` `&` `>` characters ... rendered as the
corresponding XML entities", plus the two quote entities). -/
def xmlEscapeChar (c : Char) : List Char :=
  if c = '&' then "&amp;".data
  else if c = '<' then "&lt;".data
  else if c = '>' then "&gt;".data
  else if c = '"' then "&quot;".data
  else if c = apos then aposEntity
  else [c]

/-- Character-wise map of `xmlEscapeChar` over a string's characters. -/
def xmlEscapeList : List Char → List Char
  | [] => []
  | c :: rest => xmlEscapeChar c ++ xmlEscapeList rest

/-- `item_template.format(...)` (lines 115-130): title and description are
passed through `html.escape`, link and pubDate verbatim, guid = link. -/
def item_template_filled (a : Article) : String :=
  " <item>\n  <title>" ++ html_escape a.title ++
    "</title>\n  <description>" ++ html_escape a.description ++
    "</description>\n  <link>" ++ a.link ++
    "</link>\n  <guid>" ++ a.link ++
    "</guid>\n  <pubDate>" ++ a.pubDate ++
    "</pubDate>\n </item>"

/-- The accumulation `items_xml += item_template.format(...)` of lines
123-130. -/
def items_xml (articles : List Article) : String :=
  articles.foldl (fun acc a => acc ++ item_template_filled a) ""

/-- Concatenation of the filled item templates in input order (what the
fold on lines 123-130 computes). -/
def joinItems : List Article → String
  | [] => ""
  | a :: rest => item_template_filled a ++ joinItems rest

/-- The fixed channel header of `rss_template` (lines 103-110), with the
build date substituted into both `lastBuildDate` and `pubDate`. -/
def rss_head (buildDate : String) : String :=
  "<?xml version=\"1.0\" encoding=\"UTF-8\" ?>\n<rss version=\"2.0\">\n<channel>\n <title>Transformer Circuits</title>\n <description>Unofficial RSS feed for Transformer Circuits Thread (transformer-circuits.pub)</description>\n <link>https://transformer-circuits.pub/</link>\n <lastBuildDate>" ++
    buildDate ++ "</lastBuildDate>\n <pubDate>" ++ buildDate ++ "</pubDate>\n"

/-- The closing part of `rss_template` (lines 111-113). -/
def rss_tail : String := "\n</channel>\n</rss>"

/-- `generate_rss` (lines 101-135); `datetime.now()` on line 133 is the
`now` parameter. -/
def generate_rss (now : Datetime) (articles : List Article) : String :=
  rss_head (formatDatetime now) ++ items_xml articles ++ rss_tail

/-- Generic character-wise expansion map, used to state what the sequential
`replaceChar` passes of `html_escape` compute. -/
def charMap (f : Char → List Char) : List Char → List Char
  | [] => []
  | c :: rest => f c ++ charMap f rest

/-- The characters of the opening tag `<item>`. -/
def itemTag : List Char := ['<', 'i', 't', 'e', 'm', '>']

/-- Number of occurrences of the substring `<item>` (one `<item>` element
opens per occurrence in a well-formed feed). -/
def countItemTags : List Char → Nat
  | [] => 0
  | c :: rest => (if isPre itemTag (c :: rest) then 1 else 0) + countItemTags rest

/-- No `<` among the last five characters of the list: appending more text
can then never create a new `<item>` occurrence spanning the boundary. -/
def tailSafe : List Char → Bool
  | [] => true
  | c :: rest => (if rest.length < 5 then c != '<' else true) && tailSafe rest

/-- Outcome of `requests.get` (the network layer is external): either some
`RequestException` was raised before a response arrived (connection error,
timeout, ...), or a response with a status code and body text came back. -/
inductive NetResult where
  | exn (msg : String)
  | ok (status : Nat) (body : String)
deriving DecidableEq, Repr

/-- `response.raise_for_status()` raises `HTTPError` (a
`RequestException`) exactly for 4xx and 5xx status codes. -/
def raisesForStatus (status : Nat) : Bool := decide (400 ≤ status ∧ status < 600)

/-- The diagnostic line written on line 20 (`print(f"Error fetching URL:
{e}", file=sys.stderr)`). -/
def fetchErrLine (msg : String) : String := "Error fetching URL: " ++ msg

/-- Modelled from the spec: the text of the `HTTPError` raised by
`raise_for_status` (requests is external; only the presence of the
diagnostic matters to the spec). -/
def httpErrText (status : Nat) : String := "HTTP error " ++ ⟨decDigits status⟩

/-- `fetch_html` (lines 10-21): returns the body on success, otherwise
prints one diagnostic line to stderr and returns `None`.  Result is
(returned value, stderr lines). -/
def fetch_html (resp : NetResult) : Option String × List String :=
  match resp with
  | NetResult.exn msg => (none, [fetchErrLine msg])
  | NetResult.ok status body =>
    if raisesForStatus status then (none, [fetchErrLine (httpErrText status)])
    else (some body, [])

/-- The fixed base URL of line 138. -/
def base_url : String := "https://transformer-circuits.pub/"

/-- `main` (lines 137-144).  `parse` models BeautifulSoup turning the page
body into the anchor list (external collaborator); the result pair is
(stdout lines, stderr lines).  Python truthiness: `if html_content:` is
false for both `None` and the empty string. -/
def run_main (parse : String → List ATag) (now : Datetime) (resp : NetResult) :
    List String × List String :=
  match fetch_html resp with
  | (some content, errs) =>
    if content ≠ "" then
      ([generate_rss now (extract_articles now base_url (parse content))], errs)
    else ([], errs)
  | (none, errs) => ([], errs)

/-- A fixed "current moment" used by concrete witnesses (2024-05-05 was a
Sunday). -/
def now0 : Datetime := ⟨2024, 5, 5, 12, 0, 0⟩

/-- A well-behaved anchor: absolute year-bearing URL, non-empty title, an
ISO date in the parent text. -/
def tagGood : ATag :=
  ⟨"https://transformer-circuits.pub/2021/framework/index.html",
   "A Mathematical Framework", some "(2021-12-22)", some "note"⟩

/-- Same URL as `tagGood` but with empty visible text. -/
def tagEmptyTitle : ATag :=
  ⟨"https://transformer-circuits.pub/2021/framework/index.html", "", none, none⟩

/-- Anchor whose parent text carries only a month-name date. -/
def tagMonth : ATag :=
  ⟨"https://transformer-circuits.pub/2021/framework/index.html",
   "Framework", some "December 2021", some "note"⟩

/-- Anchor whose parent text contains `(2021-12-22)` but an earlier
ISO-shaped date as well. -/
def tagIsoCex : ATag :=
  ⟨"https://transformer-circuits.pub/2021/framework/index.html",
   "T", some "(2020-01-01) see (2021-12-22)", some "note"⟩

/-- Anchor whose parent text contains `December 2021` but an earlier
month-name date as well, and no ISO date. -/
def tagMonthCex : ATag :=
  ⟨"https://transformer-circuits.pub/2021/framework/index.html",
   "T", some "January 2020 and December 2021", some "note"⟩

/-- Anchor whose parent text month-name year is 0000 (not a valid
`datetime` year). -/
def tagYearZero : ATag :=
  ⟨"https://transformer-circuits.pub/2021/framework/index.html",
   "T", some "December 0000", some "note"⟩

/-- An adversarial article record whose link text is itself `<item>`. -/
def artCex : Article := ⟨"T", "<item>", "", ""⟩

/-- Two well-behaved article records (titles/descriptions with markup
characters, clean links and dates). -/
def artA : Article :=
  ⟨"Title <&>", "https://transformer-circuits.pub/2021/a", "d<esc>",
   "Wed, 22 Dec 2021 00:00:00 -0000"⟩

def artB : Article :=
  ⟨"B", "https://transformer-circuits.pub/2022/b", "",
   "Thu, 01 Dec 2022 00:00:00 -0000"⟩

lemma extractLoop_link_not_seen (now : Datetime) (base : String) :
    ∀ (tags : List ATag) (seen : List String) (r : Article),
      r ∈ extractLoop now base tags seen → r.link ∉ seen := by
  intro tags
  induction tags with
  | nil => intro seen r h; simp [extractLoop] at h
  | cons a rest ih =>
    intro seen r h
    simp only [extractLoop] at h
    by_cases h1 : hasYearSeg (urljoin base a.href) = false
    · rw [if_pos h1] at h
      exact ih seen r h
    · rw [if_neg h1] at h
      by_cases h2 : urljoin base a.href ∈ seen
      · rw [if_pos h2] at h
        exact ih seen r h
      · rw [if_neg h2] at h
        by_cases h3 : a.text = ""
        · rw [if_pos h3] at h
          intro hs
          exact ih _ r h (List.mem_cons_of_mem _ hs)
        · rw [if_neg h3] at h
          rcases List.mem_cons.mp h with hr | hr
          · subst hr
            simpa [mkArticle] using h2
          · intro hs
            exact ih _ r hr (List.mem_cons_of_mem _ hs)

lemma extractLoop_links_nodup (now : Datetime) (base : String) :
    ∀ (tags : List ATag) (seen : List String),
      ((extractLoop now base tags seen).map (fun r => r.link)).Nodup := by
  intro tags
  induction tags with
  | nil => intro seen; simp [extractLoop]
  | cons a rest ih =>
    intro seen
    simp only [extractLoop]
    by_cases h1 : hasYearSeg (urljoin base a.href) = false
    · rw [if_pos h1]; exact ih seen
    · rw [if_neg h1]
      by_cases h2 : urljoin base a.href ∈ seen
      · rw [if_pos h2]; exact ih seen
      · rw [if_neg h2]
        by_cases h3 : a.text = ""
        · rw [if_pos h3]; exact ih _
        · rw [if_neg h3]
          simp only [List.map_cons, List.nodup_cons]
          refine ⟨?_, ih _⟩
          intro hmem
          rcases List.mem_map.mp hmem with ⟨r, hr, hlink⟩
          have hns := extractLoop_link_not_seen now base rest _ r hr
          simp only [mkArticle] at hlink
          exact hns (by rw [hlink]; exact List.mem_cons_self _ _)

lemma extractLoop_title_ne (now : Datetime) (base : String) :
    ∀ (tags : List ATag) (seen : List String) (r : Article),
      r ∈ extractLoop now base tags seen → r.title ≠ "" := by
  intro tags
  induction tags with
  | nil => intro seen r h; simp [extractLoop] at h
  | cons a rest ih =>
    intro seen r h
    simp only [extractLoop] at h
    by_cases h1 : hasYearSeg (urljoin base a.href) = false
    · rw [if_pos h1] at h
      exact ih seen r h
    · rw [if_neg h1] at h
      by_cases h2 : urljoin base a.href ∈ seen
      · rw [if_pos h2] at h
        exact ih seen r h
      · rw [if_neg h2] at h
        by_cases h3 : a.text = ""
        · rw [if_pos h3] at h
          exact ih _ r h
        · rw [if_neg h3] at h
          rcases List.mem_cons.mp h with hr | hr
          · subst hr
            simpa [mkArticle] using h3
          · exact ih _ r hr

lemma extractLoop_year (now : Datetime) (base : String) :
    ∀ (tags : List ATag) (seen : List String) (r : Article),
      r ∈ extractLoop now base tags seen → hasYearSeg r.link = true := by
  intro tags
  induction tags with
  | nil => intro seen r h; simp [extractLoop] at h
  | cons a rest ih =>
    intro seen r h
    simp only [extractLoop] at h
    by_cases h1 : hasYearSeg (urljoin base a.href) = false
    · rw [if_pos h1] at h
      exact ih seen r h
    · rw [if_neg h1] at h
      by_cases h2 : urljoin base a.href ∈ seen
      · rw [if_pos h2] at h
        exact ih seen r h
      · rw [if_neg h2] at h
        by_cases h3 : a.text = ""
        · rw [if_pos h3] at h
          exact ih _ r h
        · rw [if_neg h3] at h
          rcases List.mem_cons.mp h with hr | hr
          · subst hr
            cases hb : hasYearSeg (urljoin base a.href) with
            | false => exact absurd hb h1
            | true => simpa [mkArticle] using hb
          · exact ih _ r hr

lemma extractLoop_blocked (now : Datetime) (base : String) (a : ATag) (post : List ATag)
    (hy : hasYearSeg (urljoin base a.href) = true) (ht : a.text = "") :
    ∀ (pre : List ATag) (seen : List String),
      urljoin base a.href ∉ seen →
      (∀ b ∈ pre, urljoin base b.href ≠ urljoin base a.href) →
      urljoin base a.href ∉
        (extractLoop now base (pre ++ a :: post) seen).map (fun r => r.link) := by
  intro pre
  induction pre with
  | nil =>
    intro seen hseen _
    simp only [List.nil_append, extractLoop]
    rw [if_neg (by simp [hy]), if_neg hseen, if_pos ht]
    intro hmem
    rcases List.mem_map.mp hmem with ⟨r, hr, hlink⟩
    have hns := extractLoop_link_not_seen now base post _ r hr
    exact hns (by rw [hlink]; exact List.mem_cons_self _ _)
  | cons b pre' ih =>
    intro seen hseen hpre
    have hb := hpre b (List.mem_cons_self _ _)
    have hpre' : ∀ x ∈ pre', urljoin base x.href ≠ urljoin base a.href :=
      fun x hx => hpre x (List.mem_cons_of_mem _ hx)
    simp only [List.cons_append, extractLoop]
    by_cases h1 : hasYearSeg (urljoin base b.href) = false
    · rw [if_pos h1]; exact ih seen hseen hpre'
    · rw [if_neg h1]
      by_cases h2 : urljoin base b.href ∈ seen
      · rw [if_pos h2]; exact ih seen hseen hpre'
      · rw [if_neg h2]
        by_cases h3 : b.text = ""
        · rw [if_pos h3]
          refine ih _ ?_ hpre'
          intro hc
          rcases List.mem_cons.mp hc with hc | hc
          · exact hb hc.symm
          · exact hseen hc
        · rw [if_neg h3]
          simp only [List.map_cons]
          intro hmem
          rcases List.mem_cons.mp hmem with hc | hc
          · exact hb (by simpa [mkArticle] using hc.symm)
          · refine ih _ ?_ hpre' hc
            intro hc2
            rcases List.mem_cons.mp hc2 with hc2 | hc2
            · exact hb hc2.symm
            · exact hseen hc2

/-- Claim C1: for every base URL and anchor list, the records returned by
`extract_articles` carry pairwise distinct `link` values — the first
hyperlink resolving to a given absolute URL wins and later duplicates are
dropped. -/
theorem extract_articles_links_nodup (now : Datetime) (base : String) (tags : List ATag) :
    ((extract_articles now base tags).map (fun r => r.link)).Nodup :=
  extractLoop_links_nodup now base tags []

/-- Claim C2: every record emitted by `extract_articles` has a non-empty
title; anchors with empty (whitespace-normalized) visible text are
excluded entirely. -/
theorem extract_articles_title_nonempty (now : Datetime) (base : String) (tags : List ATag) :
    ∀ r ∈ extract_articles now base tags, r.title ≠ "" :=
  fun r hr => extractLoop_title_ne now base tags [] r hr

set_option maxRecDepth 10000 in
/-- Claim C2 witness: a concrete run emits `tagGood`'s record, whose title
is non-empty. -/
theorem extract_articles_title_nonempty_witness :
    mkArticle now0 base_url tagGood ∈ extract_articles now0 base_url [tagGood] ∧
      (mkArticle now0 base_url tagGood).title ≠ "" :=
  ⟨by decide, extract_articles_title_nonempty now0 base_url [tagGood] _ (by decide)⟩

/-- Claim C3: a URL with no slash-delimited `20XX` segment never occurs
among the emitted links. -/
theorem no_year_segment_never_emitted (now : Datetime) (base : String) (tags : List ATag)
    (u : String) (h : hasYearSeg u = false) :
    u ∉ (extract_articles now base tags).map (fun r => r.link) := by
  intro hmem
  rcases List.mem_map.mp hmem with ⟨r, hr, hlink⟩
  have hy := extractLoop_year now base tags [] r hr
  rw [hlink] at hy
  rw [h] at hy
  cases hy

set_option maxRecDepth 10000 in
/-- Claim C3 witness: a year-free URL is absent from a concrete run. -/
theorem no_year_segment_never_emitted_witness :
    hasYearSeg "https://transformer-circuits.pub/about" = false ∧
      "https://transformer-circuits.pub/about" ∉
        (extract_articles now0 base_url [tagGood]).map (fun r => r.link) :=
  ⟨by decide,
   no_year_segment_never_emitted now0 base_url [tagGood] _ (by decide)⟩

/-- Claim C9: if the first anchor (in document order) resolving to a given
absolute URL passes the year filter but has empty visible text, no record
with that URL is ever emitted — the dedup set records the URL before the
empty-title check runs, so later anchors with the same URL are dropped as
duplicates. -/
theorem first_empty_title_blocks_url (now : Datetime) (base : String)
    (pre post : List ATag) (a : ATag)
    (hy : hasYearSeg (urljoin base a.href) = true) (ht : a.text = "")
    (hpre : ∀ b ∈ pre, urljoin base b.href ≠ urljoin base a.href) :
    urljoin base a.href ∉
      (extract_articles now base (pre ++ a :: post)).map (fun r => r.link) :=
  extractLoop_blocked now base a post hy ht pre []
    (List.not_mem_nil _) hpre

set_option maxRecDepth 10000 in
/-- Claim C9 witness: an empty-titled anchor followed by a non-empty-titled
anchor with the same URL yields no record for that URL. -/
theorem first_empty_title_blocks_url_witness :
    hasYearSeg (urljoin base_url tagEmptyTitle.href) = true ∧
      tagEmptyTitle.text = "" ∧
      urljoin base_url tagEmptyTitle.href ∉
        (extract_articles now0 base_url ([] ++ tagEmptyTitle :: [tagGood])).map
          (fun r => r.link) :=
  ⟨by decide, by decide,
   first_empty_title_blocks_url now0 base_url [] [tagGood] tagEmptyTitle
     (by decide) (by decide)
     (fun b hb => absurd hb (List.not_mem_nil b))⟩

lemma parse_date_iso (now : Datetime) (s : String) (y m d : Nat)
    (h : findIsoDate s.data = some (y, m, d)) (hv : validYMD y m d = true) :
    parse_date now s = ⟨y, m, d, 0, 0, 0⟩ := by
  unfold parse_date
  rw [h]
  simp [hv]

lemma parse_date_month (now : Datetime) (s : String) (m y : Nat)
    (hiso : findIsoDate s.data = none) (hm : findMonthYear s.data = some (m, y))
    (hy : 1 ≤ y) :
    parse_date now s = ⟨y, m, 1, 0, 0, 0⟩ := by
  unfold parse_date monthFallback
  rw [hiso, hm]
  simp [hy]

/-- Claim C4: when the ISO-in-parentheses pattern either does not match or
matches an invalid date, and the month-name pattern either does not match
or matches year 0000 (the one year `strptime('%B %Y')` rejects),
`parse_date` returns the current moment. -/
theorem parse_date_fallback_now (now : Datetime) (s : String)
    (hiso : ∀ y m d, findIsoDate s.data = some (y, m, d) → validYMD y m d = false)
    (hmon : ∀ m y, findMonthYear s.data = some (m, y) → y = 0) :
    parse_date now s = now := by
  cases hfi : findIsoDate s.data with
  | none =>
    cases hfm : findMonthYear s.data with
    | none => simp [parse_date, monthFallback, hfi, hfm]
    | some my =>
      rcases my with ⟨m, y⟩
      have h0 := hmon m y hfm
      subst h0
      simp [parse_date, monthFallback, hfi, hfm]
  | some ymd =>
    rcases ymd with ⟨y, m, d⟩
    have hv := hiso y m d hfi
    cases hfm : findMonthYear s.data with
    | none => simp [parse_date, monthFallback, hfi, hfm, hv]
    | some my =>
      rcases my with ⟨m2, y2⟩
      have h0 := hmon m2 y2 hfm
      subst h0
      simp [parse_date, monthFallback, hfi, hfm, hv]

/-- Claim C4 witness: `(2021-13-45)` matches the ISO pattern but is not a
valid date, the month pattern does not match, so the current moment is
returned. -/
theorem parse_date_fallback_now_witness :
    findIsoDate ("(2021-13-45)".data) = some (2021, 13, 45) ∧
      parse_date now0 "(2021-13-45)" = now0 :=
  ⟨by decide,
   parse_date_fallback_now now0 "(2021-13-45)"
     (by
       intro y m d h
       have h2 : (some (2021, 13, 45) : Option (Nat × Nat × Nat)) = some (y, m, d) :=
         (by decide : findIsoDate ("(2021-13-45)".data) = some (2021, 13, 45)).symm.trans h
       simp only [Option.some.injEq, Prod.mk.injEq] at h2
       obtain ⟨hy, hm, hd⟩ := h2
       subst hy; subst hm; subst hd
       decide)
     (by
       intro m y h
       rw [(by decide : findMonthYear ("(2021-13-45)".data) = none)] at h
       cases h)⟩

/-- Claim C5 (amended): if the *first* ISO-shaped parenthesized match in the
candidate's concatenated parent text and description is `(2021-12-22)`,
the emitted record's pubDate is the RFC 822 serialization of 2021-12-22
00:00:00 — the ISO pattern is the first pattern tried, but only its first
match in the string is considered. -/
theorem iso_first_match_sets_pubdate (now : Datetime) (base : String)
    (tags : List ATag) (a : ATag) (r : Article)
    (hr : r ∈ extract_articles now base tags) (ha : r = mkArticle now base a)
    (hiso : findIsoDate (dateSrcOf a).data = some (2021, 12, 22)) :
    r.pubDate = "Wed, 22 Dec 2021 00:00:00 -0000" := by
  subst ha
  show formatDatetime (parse_date now (dateSrcOf a)) = _
  rw [parse_date_iso now _ 2021 12 22 hiso (by decide)]
  decide

set_option maxRecDepth 10000 in
/-- Claim C5 counterexample: a record whose parent text contains the
substring `(2021-12-22)` but whose pubDate is the serialization of the
*earlier* ISO match `(2020-01-01)`, not of 2021-12-22. -/
theorem iso_containment_claim_false :
    (extract_articles now0 base_url [tagIsoCex]).map (fun r => r.pubDate) =
        ["Wed, 01 Jan 2020 00:00:00 -0000"] ∧
      containsSeq ("(2021-12-22)".data) (parentTextOf tagIsoCex).data = true ∧
      ("Wed, 01 Jan 2020 00:00:00 -0000" : String) ≠ "Wed, 22 Dec 2021 00:00:00 -0000" :=
  ⟨by decide, by decide, by decide⟩

set_option maxRecDepth 10000 in
/-- Claim C5 witness: a candidate whose first (and only) ISO match is
`(2021-12-22)` gets that date. -/
theorem iso_first_match_sets_pubdate_witness :
    findIsoDate (dateSrcOf tagGood).data = some (2021, 12, 22) ∧
      (mkArticle now0 base_url tagGood).pubDate = "Wed, 22 Dec 2021 00:00:00 -0000" :=
  ⟨by decide,
   iso_first_match_sets_pubdate now0 base_url [tagGood] tagGood _
     (by decide) rfl (by decide)⟩

/-- Claim C6 (amended): if no ISO-shaped match occurs in the candidate's
concatenated parent text and description, and the *first* month-name-plus-
four-digit-year match has month `m` and year `y ≥ 1`, the emitted record's
pubDate is the RFC 822 serialization of the first day of that month and
year at midnight. -/
theorem month_year_sets_pubdate (now : Datetime) (base : String)
    (tags : List ATag) (a : ATag) (r : Article) (m y : Nat)
    (hr : r ∈ extract_articles now base tags) (ha : r = mkArticle now base a)
    (hiso : findIsoDate (dateSrcOf a).data = none)
    (hm : findMonthYear (dateSrcOf a).data = some (m, y)) (hy : 1 ≤ y) :
    r.pubDate = formatDatetime ⟨y, m, 1, 0, 0, 0⟩ := by
  subst ha
  show formatDatetime (parse_date now (dateSrcOf a)) = _
  rw [parse_date_month now _ m y hiso hm hy]

set_option maxRecDepth 10000 in
/-- Claim C6 counterexample, in two parts.  First, a record whose parent
text contains `December 2021` and no ISO date, yet whose pubDate is the
serialization of the *earlier* match `January 2020`.  Second, a parent
text of `December 0000` (a month name followed by a four-digit year) falls
back to the current moment because year 0 is not constructible. -/
theorem month_containment_claim_false :
    (extract_articles now0 base_url [tagMonthCex]).map (fun r => r.pubDate) =
        ["Wed, 01 Jan 2020 00:00:00 -0000"] ∧
      containsSeq ("December 2021".data) (parentTextOf tagMonthCex).data = true ∧
      findIsoDate (dateSrcOf tagMonthCex).data = none ∧
      ("Wed, 01 Jan 2020 00:00:00 -0000" : String) ≠ "Wed, 01 Dec 2021 00:00:00 -0000" ∧
      (extract_articles now0 base_url [tagYearZero]).map (fun r => r.pubDate) =
        [formatDatetime now0] :=
  ⟨by decide, by decide, by decide, by decide, by decide⟩

set_option maxRecDepth 10000 in
/-- Claim C6 witness: `December 2021` as the only date context yields the
RFC 822 serialization of 2021-12-01 00:00:00. -/
theorem month_year_sets_pubdate_witness :
    findMonthYear (dateSrcOf tagMonth).data = some (12, 2021) ∧
      (mkArticle now0 base_url tagMonth).pubDate = formatDatetime ⟨2021, 12, 1, 0, 0, 0⟩ ∧
      formatDatetime ⟨2021, 12, 1, 0, 0, 0⟩ = "Wed, 01 Dec 2021 00:00:00 -0000" :=
  ⟨by decide,
   month_year_sets_pubdate now0 base_url [tagMonth] tagMonth _ 12 2021
     (by decide) rfl (by decide) (by decide) (by decide),
   by decide⟩

lemma replaceChar_append (p : Char) (r : List Char) (x y : List Char) :
    replaceChar p r (x ++ y) = replaceChar p r x ++ replaceChar p r y := by
  induction x with
  | nil => rfl
  | cons c x' ih =>
    simp only [List.cons_append, replaceChar]
    by_cases h : c = p
    · simp [h, ih, List.append_assoc]
    · simp [h, ih]

lemma replaceChar_charMap (p : Char) (r : List Char) (f : Char → List Char)
    (l : List Char) :
    replaceChar p r (charMap f l) = charMap (fun c => replaceChar p r (f c)) l := by
  induction l with
  | nil => rfl
  | cons c l' ih =>
    simp only [charMap]
    rw [replaceChar_append, ih]

lemma replaceChar_as_charMap (p : Char) (r : List Char) (l : List Char) :
    replaceChar p r l = charMap (fun c => if c = p then r else [c]) l := by
  induction l with
  | nil => rfl
  | cons c l' ih =>
    simp only [charMap, replaceChar]
    by_cases h : c = p
    · simp [h, ih]
    · simp [h, ih]

lemma charMap_congr (f g : Char → List Char) (h : ∀ c, f c = g c) (l : List Char) :
    charMap f l = charMap g l := by
  induction l with
  | nil => rfl
  | cons c l' ih =>
    simp only [charMap]
    rw [h c, ih]

lemma xmlEscapeList_eq_charMap (l : List Char) :
    xmlEscapeList l = charMap xmlEscapeChar l := by
  induction l with
  | nil => rfl
  | cons c l' ih =>
    simp only [xmlEscapeList, charMap]
    rw [ih]

/-- The five sequential `str.replace` passes of `html.escape` compute
exactly the character-wise entity encoding: replacing `&` first means the
ampersands introduced by the entities are never re-escaped. -/
lemma html_escape_eq_spec (s : String) : html_escape s = ⟨xmlEscapeList s.data⟩ := by
  unfold html_escape
  congr 1
  rw [replaceChar_as_charMap '&' ("&amp;".data) s.data]
  rw [replaceChar_charMap, replaceChar_charMap, replaceChar_charMap, replaceChar_charMap]
  rw [xmlEscapeList_eq_charMap]
  apply charMap_congr
  intro c
  by_cases h1 : c = '&'
  · subst h1; decide
  · by_cases h2 : c = '<'
    · subst h2; decide
    · by_cases h3 : c = '>'
      · subst h3; decide
      · by_cases h4 : c = '"'
        · subst h4; decide
        · by_cases h5 : c = apos
          · subst h5; decide
          · simp [replaceChar, xmlEscapeChar, h1, h2, h3, h4, h5]

lemma xmlEscapeChar_no_lt (c : Char) : ∀ x ∈ xmlEscapeChar c, x ≠ '<' := by
  by_cases h1 : c = '&'
  · subst h1; decide
  · by_cases h2 : c = '<'
    · subst h2; decide
    · by_cases h3 : c = '>'
      · subst h3; decide
      · by_cases h4 : c = '"'
        · subst h4; decide
        · by_cases h5 : c = apos
          · subst h5; decide
          · intro x hx
            simp only [xmlEscapeChar, if_neg h1, if_neg h2, if_neg h3, if_neg h4,
              if_neg h5, List.mem_singleton] at hx
            subst hx
            exact h2

lemma charMap_esc_no_lt (l : List Char) : ∀ x ∈ charMap xmlEscapeChar l, x ≠ '<' := by
  induction l with
  | nil => intro x hx; simp [charMap] at hx
  | cons c l' ih =>
    intro x hx
    simp only [charMap] at hx
    rcases List.mem_append.mp hx with hx | hx
    · exact xmlEscapeChar_no_lt c x hx
    · exact ih x hx

lemma html_escape_no_lt (s : String) : ∀ x ∈ (html_escape s).data, x ≠ '<' := by
  intro x hx
  rw [html_escape_eq_spec] at hx
  have hx' : x ∈ xmlEscapeList s.data := hx
  rw [xmlEscapeList_eq_charMap] at hx'
  exact charMap_esc_no_lt s.data x hx'

lemma data_no_lt (s : String) (hs : s.data.all (fun x => x != '<') = true) :
    ∀ c ∈ s.data, c ≠ '<' := by
  intro c hc
  have := List.all_eq_true.mp hs c hc
  simpa using this

lemma digitChar_no_lt (n : Nat) : digitChar n ≠ '<' := by
  unfold digitChar
  repeat' split
  all_goals decide

lemma decDigitsGo_no_lt : ∀ (fuel n : Nat), ∀ c ∈ decDigitsGo fuel n, c ≠ '<' := by
  intro fuel
  induction fuel with
  | zero => intro n c hc; simp [decDigitsGo] at hc
  | succ f ih =>
    intro n c hc
    simp only [decDigitsGo] at hc
    by_cases h : n < 10
    · rw [if_pos h] at hc
      rcases List.mem_cons.mp hc with rfl | hc2
      · exact digitChar_no_lt n
      · exact absurd hc2 (List.not_mem_nil c)
    · rw [if_neg h] at hc
      rcases List.mem_append.mp hc with hc2 | hc2
      · exact ih _ c hc2
      · rcases List.mem_cons.mp hc2 with rfl | hc3
        · exact digitChar_no_lt _
        · exact absurd hc3 (List.not_mem_nil c)

lemma pad2_no_lt (n : Nat) : ∀ c ∈ (pad2 n).data, c ≠ '<' := by
  intro c hc
  unfold pad2 at hc
  by_cases h : n < 10
  · rw [if_pos h] at hc
    have hc' : c ∈ ['0', digitChar n] := hc
    rcases List.mem_cons.mp hc' with rfl | hc2
    · decide
    · rcases List.mem_cons.mp hc2 with rfl | hc3
      · exact digitChar_no_lt n
      · exact absurd hc3 (List.not_mem_nil c)
  · rw [if_neg h] at hc
    have hc' : c ∈ decDigits n := hc
    exact decDigitsGo_no_lt _ _ c hc'

lemma pad4_no_lt (n : Nat) : ∀ c ∈ (pad4 n).data, c ≠ '<' := by
  intro c hc
  unfold pad4 at hc
  by_cases h1 : n < 10
  · rw [if_pos h1] at hc
    have hc' : c ∈ ['0', '0', '0', digitChar n] := hc
    simp only [List.mem_cons, List.not_mem_nil, or_false] at hc'
    rcases hc' with rfl | rfl | rfl | rfl
    · decide
    · decide
    · decide
    · exact digitChar_no_lt n
  · rw [if_neg h1] at hc
    by_cases h2 : n < 100
    · rw [if_pos h2] at hc
      have hc' : c ∈ '0' :: '0' :: decDigits n := hc
      rcases List.mem_cons.mp hc' with rfl | hc2
      · decide
      · rcases List.mem_cons.mp hc2 with rfl | hc3
        · decide
        · exact decDigitsGo_no_lt _ _ c hc3
    · rw [if_neg h2] at hc
      by_cases h3 : n < 1000
      · rw [if_pos h3] at hc
        have hc' : c ∈ '0' :: decDigits n := hc
        rcases List.mem_cons.mp hc' with rfl | hc2
        · decide
        · exact decDigitsGo_no_lt _ _ c hc2
      · rw [if_neg h3] at hc
        have hc' : c ∈ decDigits n := hc
        exact decDigitsGo_no_lt _ _ c hc'

lemma pickDay_no_lt (k : Nat) : ∀ c ∈ (pickDay k).data, c ≠ '<' := by
  unfold pickDay
  repeat' split
  all_goals decide

set_option maxHeartbeats 1000000 in
lemma pickMonth_no_lt (m : Nat) : ∀ c ∈ (pickMonth m).data, c ≠ '<' := by
  unfold pickMonth
  repeat' split
  all_goals decide

lemma comma_no_lt : ∀ c ∈ (", " : String).data, c ≠ '<' := by decide

lemma space_no_lt : ∀ c ∈ (" " : String).data, c ≠ '<' := by decide

lemma colon_no_lt : ∀ c ∈ (":" : String).data, c ≠ '<' := by decide

lemma zone_no_lt : ∀ c ∈ (" -0000" : String).data, c ≠ '<' := by decide

lemma formatDatetime_no_lt (dt : Datetime) : ∀ c ∈ (formatDatetime dt).data, c ≠ '<' := by
  intro c hc
  unfold formatDatetime at hc
  simp only [String.data_append, List.mem_append] at hc
  repeat'
    first
      | exact pickDay_no_lt _ c hc
      | exact pickMonth_no_lt _ c hc
      | exact pad2_no_lt _ c hc
      | exact pad4_no_lt _ c hc
      | exact comma_no_lt c hc
      | exact space_no_lt c hc
      | exact colon_no_lt c hc
      | exact zone_no_lt c hc
      | rcases hc with hc | hc

lemma isPre_append (p : List Char) : ∀ (l y : List Char), p.length ≤ l.length →
    isPre p (l ++ y) = isPre p l := by
  induction p with
  | nil => intro l y h; rfl
  | cons a ps ih =>
    intro l y h
    cases l with
    | nil => simp at h
    | cons b l' =>
      simp only [List.cons_append, isPre, List.append_eq]
      rw [ih l' y (by simpa using h)]

lemma countItemTags_append_safe : ∀ (x y : List Char), tailSafe x = true →
    countItemTags (x ++ y) = countItemTags x + countItemTags y := by
  intro x
  induction x with
  | nil => intro y _; simp [countItemTags]
  | cons c x' ih =>
    intro y hsafe
    simp only [tailSafe, Bool.and_eq_true] at hsafe
    obtain ⟨h1, h2⟩ := hsafe
    by_cases hl : x'.length < 5
    · rw [if_pos hl] at h1
      have hc : c ≠ '<' := by simpa using h1
      have hp : ∀ z : List Char, isPre itemTag (c :: z) = false := by
        intro z
        have hb : (('<' : Char) == c) = false := by
          simp only [beq_iff_eq, beq_eq_false_iff_ne, ne_eq]
          exact fun hcc => hc hcc.symm
        simp [itemTag, isPre, hb]
      simp only [List.cons_append, countItemTags, hp, List.append_eq,
        Bool.false_eq_true, if_false]
      rw [ih y h2]
      omega
    · have h6 : itemTag.length ≤ (c :: x').length := by
        simp only [itemTag, List.length_cons, List.length]
        omega
      have heq := isPre_append itemTag (c :: x') y h6
      simp only [List.cons_append, List.append_eq] at heq
      simp only [List.cons_append, countItemTags, List.append_eq]
      simp only [heq]
      rw [ih y h2]
      omega

lemma countItemTags_append_of_ne : ∀ (x y : List Char), (∀ c ∈ x, c ≠ '<') →
    countItemTags (x ++ y) = countItemTags y := by
  intro x
  induction x with
  | nil => intro y _; rfl
  | cons c x' ih =>
    intro y h
    have hc : c ≠ '<' := h c (List.mem_cons_self _ _)
    have hb : (('<' : Char) == c) = false := by
      simp only [beq_iff_eq, beq_eq_false_iff_ne, ne_eq]
      exact fun hcc => hc hcc.symm
    have hp : isPre itemTag (c :: (x' ++ y)) = false := by
      simp [itemTag, isPre, hb]
    simp only [List.cons_append, countItemTags, hp, List.append_eq,
      Bool.false_eq_true, if_false, zero_add]
    exact ih y (fun z hz => h z (List.mem_cons_of_mem _ hz))

lemma countItemTags_item (a : Article) (y : List Char)
    (hl : ∀ c ∈ a.link.data, c ≠ '<') (hp : ∀ c ∈ a.pubDate.data, c ≠ '<') :
    countItemTags ((item_template_filled a).data ++ y) = 1 + countItemTags y := by
  unfold item_template_filled
  simp only [String.data_append, List.append_assoc]
  rw [countItemTags_append_safe _ _
    (by decide : tailSafe (" <item>\n  <title>" : String).data = true)]
  rw [countItemTags_append_of_ne _ _ (html_escape_no_lt a.title)]
  rw [countItemTags_append_safe _ _
    (by decide : tailSafe ("</title>\n  <description>" : String).data = true)]
  rw [countItemTags_append_of_ne _ _ (html_escape_no_lt a.description)]
  rw [countItemTags_append_safe _ _
    (by decide : tailSafe ("</description>\n  <link>" : String).data = true)]
  rw [countItemTags_append_of_ne _ _ hl]
  rw [countItemTags_append_safe _ _
    (by decide : tailSafe ("</link>\n  <guid>" : String).data = true)]
  rw [countItemTags_append_of_ne _ _ hl]
  rw [countItemTags_append_safe _ _
    (by decide : tailSafe ("</guid>\n  <pubDate>" : String).data = true)]
  rw [countItemTags_append_of_ne _ _ hp]
  rw [countItemTags_append_safe _ _
    (by decide : tailSafe ("</pubDate>\n </item>" : String).data = true)]
  rw [(by decide : countItemTags (" <item>\n  <title>" : String).data = 1)]
  rw [(by decide : countItemTags ("</title>\n  <description>" : String).data = 0)]
  rw [(by decide : countItemTags ("</description>\n  <link>" : String).data = 0)]
  rw [(by decide : countItemTags ("</link>\n  <guid>" : String).data = 0)]
  rw [(by decide : countItemTags ("</guid>\n  <pubDate>" : String).data = 0)]
  rw [(by decide : countItemTags ("</pubDate>\n </item>" : String).data = 0)]
  omega

lemma countItemTags_joinItems : ∀ (arts : List Article) (y : List Char),
    (∀ a ∈ arts, (∀ c ∈ a.link.data, c ≠ '<') ∧ (∀ c ∈ a.pubDate.data, c ≠ '<')) →
    countItemTags ((joinItems arts).data ++ y) = arts.length + countItemTags y := by
  intro arts
  induction arts with
  | nil =>
    intro y _
    show countItemTags (([] : List Char) ++ y) = 0 + countItemTags y
    simp
  | cons a rest ih =>
    intro y h
    have ha := h a (List.mem_cons_self _ _)
    show countItemTags ((item_template_filled a ++ joinItems rest).data ++ y) = _
    rw [String.data_append, List.append_assoc]
    rw [countItemTags_item a _ ha.1 ha.2]
    rw [ih y (fun b hb => h b (List.mem_cons_of_mem _ hb))]
    simp only [List.length_cons]
    omega

lemma foldl_items (arts : List Article) : ∀ acc : String,
    List.foldl (fun acc a => acc ++ item_template_filled a) acc arts =
      acc ++ joinItems arts := by
  induction arts with
  | nil => intro acc; simp [joinItems, String.append_empty]
  | cons a rest ih =>
    intro acc
    simp only [List.foldl_cons, joinItems]
    rw [ih, String.append_assoc]

lemma items_xml_eq (arts : List Article) : items_xml arts = joinItems arts := by
  unfold items_xml
  rw [foldl_items]
  exact String.empty_append _

lemma joinItems_split (a : Article) : ∀ (arts : List Article), a ∈ arts →
    ∃ u v : List Char,
      (joinItems arts).data = u ++ (item_template_filled a).data ++ v := by
  intro arts
  induction arts with
  | nil => intro h; exact absurd h (List.not_mem_nil a)
  | cons b rest ih =>
    intro h
    rcases List.mem_cons.mp h with rfl | h
    · exact ⟨[], (joinItems rest).data, by simp [joinItems, String.data_append]⟩
    · rcases ih h with ⟨u, v, hu⟩
      refine ⟨(item_template_filled b).data ++ u, v, ?_⟩
      show (item_template_filled b ++ joinItems rest).data = _
      rw [String.data_append, hu]
      simp [List.append_assoc]

set_option maxRecDepth 10000 in
/-- Claim C7 (amended): provided no article's link or pubDate contains the
character `<` (the design assumes URLs need no XML escaping; pubDates are
RFC 822 text), the feed built by `generate_rss` contains exactly one
`<item>` occurrence per input article; the items section is the
concatenation of the filled item templates in input order; every article's
filled template (escaped title and description, verbatim link, guid equal
to the link, verbatim pubDate) occurs contiguously in the document; and
the escaping performed on titles and descriptions is exactly the
character-wise XML entity encoding. -/
theorem generate_rss_item_structure (now : Datetime) (arts : List Article)
    (h : ∀ a ∈ arts, (∀ c ∈ a.link.data, c ≠ '<') ∧ (∀ c ∈ a.pubDate.data, c ≠ '<')) :
    countItemTags (generate_rss now arts).data = arts.length ∧
      generate_rss now arts =
        rss_head (formatDatetime now) ++ joinItems arts ++ rss_tail ∧
      (∀ a ∈ arts, ∃ u v : List Char,
        (generate_rss now arts).data = u ++ (item_template_filled a).data ++ v) ∧
      (∀ a ∈ arts, html_escape a.title = ⟨xmlEscapeList a.title.data⟩ ∧
        html_escape a.description = ⟨xmlEscapeList a.description.data⟩) := by
  have hstruct : generate_rss now arts =
      rss_head (formatDatetime now) ++ joinItems arts ++ rss_tail := by
    unfold generate_rss
    rw [items_xml_eq]
  refine ⟨?_, hstruct, ?_, ?_⟩
  · rw [hstruct]
    unfold rss_head rss_tail
    simp only [String.data_append, List.append_assoc]
    rw [countItemTags_append_safe _ _ (by decide)]
    rw [countItemTags_append_of_ne _ _ (formatDatetime_no_lt now)]
    rw [countItemTags_append_safe _ _
      (by decide : tailSafe ("</lastBuildDate>\n <pubDate>" : String).data = true)]
    rw [countItemTags_append_of_ne _ _ (formatDatetime_no_lt now)]
    rw [countItemTags_append_safe _ _
      (by decide : tailSafe ("</pubDate>\n" : String).data = true)]
    rw [countItemTags_joinItems arts _ h]
    rw [(by decide : countItemTags ("</lastBuildDate>\n <pubDate>" : String).data = 0)]
    rw [(by decide : countItemTags ("</pubDate>\n" : String).data = 0)]
    rw [(by decide : countItemTags ("\n</channel>\n</rss>" : String).data = 0)]
    have h0 : countItemTags ("<?xml version=\"1.0\" encoding=\"UTF-8\" ?>\n<rss version=\"2.0\">\n<channel>\n <title>Transformer Circuits</title>\n <description>Unofficial RSS feed for Transformer Circuits Thread (transformer-circuits.pub)</description>\n <link>https://transformer-circuits.pub/</link>\n <lastBuildDate>" : String).data = 0 := by decide
    rw [h0]
    omega
  · intro a ha
    rcases joinItems_split a arts ha with ⟨u, v, hu⟩
    refine ⟨(rss_head (formatDatetime now)).data ++ u, v ++ rss_tail.data, ?_⟩
    rw [hstruct]
    simp only [String.data_append, hu]
    simp [List.append_assoc]
  · intro a _
    exact ⟨html_escape_eq_spec a.title, html_escape_eq_spec a.description⟩

set_option maxRecDepth 10000 in
/-- Claim C7 counterexample: with an adversarial record whose link text is
`<item>`, a one-article feed contains three `<item>` occurrences (the
template's plus one each from the verbatim link and guid), so "exactly N
`<item>` elements for every list of records" fails as stated. -/
theorem generate_rss_claim_false :
    countItemTags (generate_rss now0 [artCex]).data = 3 ∧ [artCex].length = 1 :=
  ⟨by decide, rfl⟩

set_option maxRecDepth 10000 in
/-- Claim C7 witness: two well-behaved records give exactly two `<item>`
occurrences. -/
theorem generate_rss_item_structure_witness :
    (∀ a ∈ [artA, artB], (∀ c ∈ a.link.data, c ≠ '<') ∧ (∀ c ∈ a.pubDate.data, c ≠ '<')) ∧
      countItemTags (generate_rss now0 [artA, artB]).data = 2 :=
  ⟨by decide, (generate_rss_item_structure now0 [artA, artB] (by decide)).1⟩

/-- Claim C8: whenever the fetch fails — a `RequestException` was raised
before a response, or the response status is 4xx/5xx so that
`raise_for_status` raises — `fetch_html` returns `None` together with
exactly one diagnostic line on stderr, and `main` prints nothing to
stdout. -/
theorem fetch_failure_silent (parse : String → List ATag) (now : Datetime)
    (resp : NetResult)
    (h : ∀ s b, resp = NetResult.ok s b → 400 ≤ s ∧ s < 600) :
    (fetch_html resp).1 = none ∧ (fetch_html resp).2.length = 1 ∧
      (run_main parse now resp).1 = [] := by
  cases resp with
  | exn msg => exact ⟨rfl, rfl, rfl⟩
  | ok s b =>
    have hs := h s b rfl
    have hr : raisesForStatus s = true := decide_eq_true hs
    refine ⟨?_, ?_, ?_⟩ <;> simp [fetch_html, run_main, hr]

/-- Claim C8 witness: a timeout-style exception yields `None`, one stderr
line and empty stdout. -/
theorem fetch_failure_silent_witness :
    (∀ s b, NetResult.exn "timeout" = NetResult.ok s b → 400 ≤ s ∧ s < 600) ∧
      (fetch_html (NetResult.exn "timeout")).1 = none ∧
      (fetch_html (NetResult.exn "timeout")).2.length = 1 ∧
      (run_main (fun _ => []) now0 (NetResult.exn "timeout")).1 = [] :=
  ⟨fun _ _ hc => NetResult.noConfusion hc,
   fetch_failure_silent (fun _ => []) now0 (NetResult.exn "timeout")
     (fun _ _ hc => NetResult.noConfusion hc)⟩

/-- Claim C10: when the fetch succeeds (`raise_for_status` does not raise)
but the body is the empty string, `main` prints nothing at all — exactly
the same stdout as an absent fetch result; no zero-item feed is emitted. -/
theorem empty_body_no_output (parse : String → List ATag) (now : Datetime)
    (s : Nat) (h : raisesForStatus s = false) :
    run_main parse now (NetResult.ok s "") = ([], []) ∧
      ∀ msg, (run_main parse now (NetResult.ok s "")).1 =
        (run_main parse now (NetResult.exn msg)).1 := by
  constructor
  · simp [run_main, fetch_html, h]
  · intro msg
    simp [run_main, fetch_html, h]

/-- Claim C10 witness: a 200 response with empty body produces no output
on either stream. -/
theorem empty_body_no_output_witness :
    raisesForStatus 200 = false ∧
      run_main (fun _ => []) now0 (NetResult.ok 200 "") = ([], []) :=
  ⟨by decide, (empty_body_no_output (fun _ => []) now0 200 (by decide)).1⟩

end TC
